import Mathlib

/-!
Shallow embedding of the unikorn-images auditor (src/main.go).

The program compiles one JSON schema ("v2", the `schemav2` constant),
filters an OpenStack image list down to those images whose property bag
carries at least one key with the `unikorn:` namespace prefix, and runs
`process` on each surviving image: print an identity header (id, name,
creation time, size in GiB computed as `SizeBytes >> 30`), validate the
property bag against the schema, and print either a non-conformance
diagnostic or the grouped field view.

A PropertyBag is a string-keyed, string-valued map; we model it as an
association list with first-match lookup (Go maps have unique keys, so
this is faithful).  The JSON-schema validation engine is an external
library (`github.com/kaptinlin/jsonschema`); its behaviour on `schemav2`
is modelled below from the schema text in src/main.go together with the
specification's description of the engine's report shape.
-/

namespace UnikornImages

/-- A property bag: string keys to string values, unique keys. -/
abbrev Bag := List (String × String)

/-- Lookup of a key in a bag (Go map read). -/
def lookupBag (bag : Bag) (k : String) : Option String :=
  List.lookup k bag

/-- The required keys of `schemav2` (src/main.go lines 21-27). -/
def requiredKeys : List String :=
  ["unikorn:os:kernel", "unikorn:os:family", "unikorn:os:distro",
   "unikorn:os:version", "unikorn:virtualization"]

/-- All 13 property keys declared by `schemav2` (src/main.go lines 28-88). -/
def recognizedKeys : List String :=
  ["unikorn:os:kernel", "unikorn:os:family", "unikorn:os:distro",
   "unikorn:os:variant", "unikorn:os:codename", "unikorn:os:version",
   "unikorn:package:kubernetes", "unikorn:package:slurmd",
   "unikorn:gpu_vendor", "unikorn:gpu_models", "unikorn:gpu_driver",
   "unikorn:virtualization", "unikorn:digest"]

/-- The enumeration constraint attached to a key by `schemav2`, if any
(`none` means the key is a free-form string). -/
def enumOf : String → Option (List String)
  | "unikorn:os:kernel" => some ["linux"]
  | "unikorn:os:family" => some ["debian", "redhat"]
  | "unikorn:os:distro" => some ["ubuntu", "rocky"]
  | "unikorn:gpu_vendor" => some ["AMD", "NVIDIA"]
  | "unikorn:virtualization" => some ["any", "baremetal", "virtualized"]
  | _ => none

/-- Does value `v` satisfy the `schemav2` constraint on key `k`?
Every value in a bag is a string, so the `"type":"string"` part always
holds; only the `enum` part can fail. -/
def satisfies (k v : String) : Bool :=
  match enumOf k with
  | some es => es.contains v
  | none => true

/-- The required keys of `schemav2` that are absent from the bag. -/
def missingRequired (bag : Bag) : List String :=
  requiredKeys.filter fun k => (lookupBag bag k).isNone

/-- The recognized keys present in the bag whose value violates their
`schemav2` constraint.  Keys outside `recognizedKeys` are never
inspected. -/
def invalidKeys (bag : Bag) : List String :=
  recognizedKeys.filter fun k =>
    match lookupBag bag k with
    | some v => !satisfies k v
    | none => false

/-- JSON-schema validity of a bag against `schemav2`: every required key
present and every present recognized key's value within its constraint. -/
def validBag (bag : Bag) : Bool :=
  (missingRequired bag).isEmpty && (invalidKeys bag).isEmpty

/-- A violation category of a defect. -/
inductive DefectCategory where
  | missingRequiredProperty
  | invalidValue
deriving DecidableEq, Repr

/-- One grouped violation: a category plus every offending key of that
category. -/
structure Defect where
  category : DefectCategory
  keys : List String
deriving DecidableEq, Repr

/-- Modelled from the spec: the validation engine
(`github.com/kaptinlin/jsonschema`, not part of this repository) groups
violations by category, one defect per category carrying the full list of
offending keys. -/
def defects (bag : Bag) : List Defect :=
  (if (missingRequired bag).isEmpty then []
   else [⟨DefectCategory.missingRequiredProperty, missingRequired bag⟩]) ++
  (if (invalidKeys bag).isEmpty then []
   else [⟨DefectCategory.invalidValue, invalidKeys bag⟩])

/-- The member names of the four printed field groups
(src/main.go lines 123-142). -/
def osNames : List String :=
  ["kernel", "family", "distro", "variant", "codename", "version"]

def packageNames : List String := ["kubernetes", "slurmd"]

def gpuNames : List String := ["vendor", "models", "driver"]

/-- Group name, member name, and bag key of every field the success view
emits, in emission order (src/main.go lines 123-142). -/
def fieldKeys : List (String × String × String) :=
  (osNames.map fun n => ("os", n, "unikorn:os:" ++ n)) ++
  (packageNames.map fun n => ("package", n, "unikorn:package:" ++ n)) ++
  (gpuNames.map fun n => ("gpu", n, "unikorn:gpu_" ++ n)) ++
  [("platform", "virtualization", "unikorn:virtualization"),
   ("platform", "digest", "unikorn:digest")]

/-- The extracted-field view of a conforming bag: every group member with
the verbatim bag value, `none` standing for an absent optional key. -/
def extractFields (bag : Bag) : List (String × String × Option String) :=
  fieldKeys.map fun gnk => (gnk.1, gnk.2.1, lookupBag bag gnk.2.2)

/-- The outcome of classifying one bag against `schemav2`. -/
inductive Outcome where
  | conforming (fields : List (String × String × Option String))
  | nonConforming (ds : List Defect)
deriving DecidableEq, Repr

/-- Classification of a bag: `Conforming` with the extracted fields when
the bag validates, otherwise `NonConforming` with the grouped defects
(src/main.go lines 98-143). -/
def classify (bag : Bag) : Outcome :=
  if validBag bag then Outcome.conforming (extractFields bag)
  else Outcome.nonConforming (defects bag)

/-- One image record as delivered by the catalog source (the fields
`process` and `main` read: src/main.go lines 91-96, 191-199). -/
structure Image where
  id : String
  name : String
  createdAt : String
  sizeBytes : Nat
  properties : Bag
deriving DecidableEq, Repr

/-- Size in gibibytes: `image.SizeBytes >> 30` (src/main.go line 96). -/
def sizeGiB (image : Image) : Nat :=
  image.sizeBytes >>> 30

/-- The fixed four-line head of the non-conformance diagnostic
(src/main.go lines 100-103). -/
def errorHeaderLines : List String :=
  ["error:",
   "  message: Image does not match Unikorn Schema V2",
   "  documentation: See https://github.com/unikorn-cloud/specifications/blob/main/specifications/providers/openstack/flavors_and_images.md",
   "  detail:"]

/-- One validation-engine error entry: its category key (the `errorType`)
and its params map. -/
abbrev ErrorEntry := String × List (String × String)

/-- The per-error detail lines (src/main.go lines 105-118): only the
`"properties"` error category produces output — its fixed message plus,
for each of the param keys `"property"` and `"properties"` that is
present, a line with that param's value.  Every other category falls
through the `switch` and prints nothing. -/
def errorDetailLines (errors : List ErrorEntry) : List String :=
  errors.flatMap fun e =>
    if e.1 = "properties" then
      "  - message: Object properties failed validation or do not exist" ::
      (["property", "properties"].filterMap fun k =>
        (List.lookup k e.2).map fun v => "    properties: " ++ v)
    else []

/-- Modelled from the spec: the error map the validation engine
(`github.com/kaptinlin/jsonschema`, not part of this repository) returns
for an invalid bag — a single `"properties"` entry whose params carry the
list of offending keys. -/
def validationErrors (bag : Bag) : List ErrorEntry :=
  if validBag bag then []
  else [("properties",
         [("properties",
           "[" ++ String.intercalate ", " (missingRequired bag ++ invalidKeys bag) ++ "]")])]

/-- The success view (src/main.go lines 123-142): each group header
followed by every member line, the value read from the bag with the Go
map's empty-string default. -/
def successLines (bag : Bag) : List String :=
  ("os:" :: osNames.map fun n =>
    "  " ++ n ++ ": " ++ (lookupBag bag ("unikorn:os:" ++ n)).getD "") ++
  ("package:" :: packageNames.map fun n =>
    "  " ++ n ++ ": " ++ (lookupBag bag ("unikorn:package:" ++ n)).getD "") ++
  ("gpu:" :: gpuNames.map fun n =>
    "  " ++ n ++ ": " ++ (lookupBag bag ("unikorn:gpu_" ++ n)).getD "") ++
  ["virtualization: " ++ (lookupBag bag "unikorn:virtualization").getD "",
   "digest: " ++ (lookupBag bag "unikorn:digest").getD ""]

/-- Everything `process` prints for one image (src/main.go lines 91-143):
the identity header, then either the diagnostic or the success view. -/
def processLines (image : Image) : List String :=
  ["---",
   "id: " ++ image.id,
   "name: " ++ image.name,
   "createdAt: " ++ image.createdAt,
   "sizeGiB: " ++ toString (sizeGiB image)] ++
  (if validBag image.properties then successLines image.properties
   else errorHeaderLines ++ errorDetailLines (validationErrors image.properties))

/-- Go `strings.HasPrefix` (src/main.go line 193): does `pre` prefix
`s`?  Modelled on the character sequence of the string. -/
def hasPrefix (s pre : String) : Bool :=
  pre.data.isPrefixOf s.data

/-- The eligibility filter of `main` (src/main.go lines 191-195): an image
survives `slices.DeleteFunc` exactly when some key of its bag carries the
`unikorn:` prefix. -/
def eligible (image : Image) : Bool :=
  image.properties.any fun kv => hasPrefix kv.1 "unikorn:"

/-- The classification outcomes the run produces, one per eligible image
in order (src/main.go lines 191-199): ineligible images are deleted
before the loop, every surviving image is processed. -/
def runOutcomes (imgs : List Image) : List (Image × Outcome) :=
  (imgs.filter eligible).map fun i => (i, classify i.properties)

/-- The full emitted output of the run over a list of images. -/
def runLines (imgs : List Image) : List String :=
  (imgs.filter eligible).flatMap processLines

/-! ## Helper lemmas -/

/-- Requiredness implies recognition: every `schemav2` required key is a
declared property key. -/
theorem required_subset_recognized : ∀ k ∈ requiredKeys, k ∈ recognizedKeys := by
  decide

/-- No enumeration of `schemav2` contains the empty string. -/
theorem enumOf_not_contains_empty (k : String) (es : List String)
    (he : enumOf k = some es) : es.contains "" = false := by
  unfold enumOf at he
  split at he
  any_goals exact Option.noConfusion he
  all_goals (injection he with h; subst h; decide)

/-- A key's absence from `missingRequired` and `invalidKeys`, unfolded. -/
theorem validBag_eq_true_iff (bag : Bag) :
    validBag bag = true ↔ missingRequired bag = [] ∧ invalidKeys bag = [] := by
  simp [validBag, List.isEmpty_iff]

/-- Consing a key that `schemav2` does not recognize changes no
recognized key's lookup. -/
theorem lookup_cons_unrecognized (bag : Bag) (k v k' : String)
    (hk : k ∉ recognizedKeys) (hk' : k' ∈ recognizedKeys) :
    lookupBag ((k, v) :: bag) k' = lookupBag bag k' := by
  have hne : k' ≠ k := fun h => hk (h ▸ hk')
  have hbeq : (k' == k) = false := beq_eq_false_iff_ne.mpr hne
  simp [lookupBag, List.lookup_cons, hbeq]

/-! ## Claim theorems -/

/-- C5: for every image, the reported sizeGiB is the byte size
right-shifted by 30, i.e. truncating integer division by 2^30; an image
of 3221225472 bytes reports sizeGiB = 3 exactly, and an image of
3400000000 bytes also reports 3, not 4. -/
theorem sizeGiB_is_truncating_shift :
    (∀ image : Image, sizeGiB image = image.sizeBytes / 2 ^ 30) ∧
    sizeGiB ⟨"a", "x", "t", 3221225472, []⟩ = 3 ∧
    sizeGiB ⟨"b", "y", "u", 3400000000, []⟩ = 3 := by
  refine ⟨fun image => Nat.shiftRight_eq_div_pow _ _, by decide, by decide⟩

/-- C6: classification is a pure, deterministic function of the bag:
classifying twice yields the same outcome, the outcome depends only on
the property bag, and the emitted output of `process` is likewise
reproducible. -/
theorem classify_deterministic :
    (∀ bag : Bag, classify bag = classify bag) ∧
    (∀ image₁ image₂ : Image, image₁.properties = image₂.properties →
      classify image₁.properties = classify image₂.properties) ∧
    (∀ image : Image, processLines image = processLines image) := by
  exact ⟨fun _ => rfl, fun _ _ h => by rw [h], fun _ => rfl⟩

/-- C6 witness: two image records sharing one property bag classify
identically. -/
theorem classify_deterministic_witness :
    classify (Image.mk "id1" "n1" "t1" 0 [("unikorn:os:kernel", "linux")]).properties =
    classify (Image.mk "id2" "n2" "t2" 5 [("unikorn:os:kernel", "linux")]).properties :=
  classify_deterministic.2.1
    (Image.mk "id1" "n1" "t1" 0 [("unikorn:os:kernel", "linux")])
    (Image.mk "id2" "n2" "t2" 5 [("unikorn:os:kernel", "linux")]) rfl

/-- C1: a bag missing at least one required key classifies as
`NonConforming`, and the defects contain a missing-required defect whose
key list is exactly the required keys absent from the bag — no other key
appears in it. -/
theorem missing_required_nonconforming (bag : Bag)
    (h : ∃ k ∈ requiredKeys, lookupBag bag k = none) :
    classify bag = Outcome.nonConforming (defects bag) ∧
    Defect.mk DefectCategory.missingRequiredProperty (missingRequired bag) ∈ defects bag ∧
    (∀ k, k ∈ missingRequired bag ↔ k ∈ requiredKeys ∧ lookupBag bag k = none) := by
  obtain ⟨k, hk, hnone⟩ := h
  have hmem : k ∈ missingRequired bag := by
    simp [missingRequired, List.mem_filter, hk, hnone]
  have hne : missingRequired bag ≠ [] := fun hnil => by simp [hnil] at hmem
  have hempty : (missingRequired bag).isEmpty = false := by
    simpa [List.isEmpty_iff] using hne
  refine ⟨?_, ?_, ?_⟩
  · simp [classify, validBag, hempty]
  · simp [defects, hempty]
  · intro k'
    simp [missingRequired, List.mem_filter, Option.isNone_iff_eq_none]

/-- C1 witness: the bag holding only a valid kernel yields exactly one
defect listing the four absent required keys. -/
theorem missing_required_nonconforming_witness :
    classify [("unikorn:os:kernel", "linux")] =
      Outcome.nonConforming
        [⟨DefectCategory.missingRequiredProperty,
          ["unikorn:os:family", "unikorn:os:distro", "unikorn:os:version",
           "unikorn:virtualization"]⟩] :=
  ((missing_required_nonconforming [("unikorn:os:kernel", "linux")]
      ⟨"unikorn:os:family", by decide, by decide⟩).1).trans (by decide)

/-- Every field key the success view reads is a declared property key. -/
theorem fieldKeys_recognized : ∀ gnk ∈ fieldKeys, gnk.2.2 ∈ recognizedKeys := by
  decide

/-- C3: a bag whose OS kernel value lies outside the closed enumeration
{linux} classifies as `NonConforming`, the kernel key being flagged
invalid, whatever the rest of the bag holds. -/
theorem kernel_enum_enforced (bag : Bag) (v : String)
    (hk : lookupBag bag "unikorn:os:kernel" = some v) (hv : v ≠ "linux") :
    classify bag = Outcome.nonConforming (defects bag) ∧
    "unikorn:os:kernel" ∈ invalidKeys bag := by
  have hb : (v == "linux") = false := beq_eq_false_iff_ne.mpr hv
  have hsat : satisfies "unikorn:os:kernel" v = false := by
    simp [satisfies, enumOf, List.contains, List.elem, hb]
  have hmem : "unikorn:os:kernel" ∈ invalidKeys bag := by
    simp [invalidKeys, List.mem_filter, hk, hsat]
    decide
  have hempty : (invalidKeys bag).isEmpty = false := by
    rcases h : (invalidKeys bag).isEmpty with _ | _
    · rfl
    · rw [List.isEmpty_iff] at h
      simp [h] at hmem
  exact ⟨by simp [classify, validBag, hempty], hmem⟩

/-- C3 witness: kernel "windows" with every other required key valid is
still non-conforming, flagged on the kernel key. -/
theorem kernel_enum_enforced_witness :
    classify
      [("unikorn:os:kernel", "windows"), ("unikorn:os:family", "debian"),
       ("unikorn:os:distro", "ubuntu"), ("unikorn:os:version", "22.04"),
       ("unikorn:virtualization", "any")] =
    Outcome.nonConforming [⟨DefectCategory.invalidValue, ["unikorn:os:kernel"]⟩] :=
  ((kernel_enum_enforced
      [("unikorn:os:kernel", "windows"), ("unikorn:os:family", "debian"),
       ("unikorn:os:distro", "ubuntu"), ("unikorn:os:version", "22.04"),
       ("unikorn:virtualization", "any")]
      "windows" (by decide) (by decide)).1).trans (by decide)

/-- C7: a required enumerated key present with the empty-string value
counts as present (it is not among the missing required keys), the empty
string fails the enumeration, and the bag is `NonConforming` with the key
in an invalid-value defect while no missing-required defect mentions it. -/
theorem empty_enum_value_invalid_not_missing (bag : Bag) (k : String)
    (es : List String) (hreq : k ∈ requiredKeys) (he : enumOf k = some es)
    (hv : lookupBag bag k = some "") :
    k ∉ missingRequired bag ∧
    k ∈ invalidKeys bag ∧
    classify bag = Outcome.nonConforming (defects bag) ∧
    Defect.mk DefectCategory.invalidValue (invalidKeys bag) ∈ defects bag ∧
    (∀ d ∈ defects bag,
      d.category = DefectCategory.missingRequiredProperty → k ∉ d.keys) := by
  have hnotmiss : k ∉ missingRequired bag := by
    simp [missingRequired, List.mem_filter, hv]
  have hsat : satisfies k "" = false := by
    simp only [satisfies, he]
    exact enumOf_not_contains_empty k es he
  have hmem : k ∈ invalidKeys bag := by
    simp [invalidKeys, List.mem_filter, hv, hsat]
    exact required_subset_recognized k hreq
  have hempty : (invalidKeys bag).isEmpty = false := by
    rcases h : (invalidKeys bag).isEmpty with _ | _
    · rfl
    · rw [List.isEmpty_iff] at h
      simp [h] at hmem
  refine ⟨hnotmiss, hmem, by simp [classify, validBag, hempty], ?_, ?_⟩
  · simp [defects, hempty]
  · intro d hd hcat
    simp only [defects, List.mem_append] at hd
    rcases hd with hd | hd
    · split at hd
      · simp at hd
      · simp at hd
        subst hd
        exact hnotmiss
    · rw [hempty] at hd
      simp at hd
      subst hd
      exact DefectCategory.noConfusion hcat

/-- C7 witness: virtualization present but empty is flagged as an invalid
value, not as missing. -/
theorem empty_enum_value_invalid_not_missing_witness :
    "unikorn:virtualization" ∉
        missingRequired
          [("unikorn:os:kernel", "linux"), ("unikorn:os:family", "debian"),
           ("unikorn:os:distro", "ubuntu"), ("unikorn:os:version", "22.04"),
           ("unikorn:virtualization", "")] ∧
    classify
      [("unikorn:os:kernel", "linux"), ("unikorn:os:family", "debian"),
       ("unikorn:os:distro", "ubuntu"), ("unikorn:os:version", "22.04"),
       ("unikorn:virtualization", "")] =
    Outcome.nonConforming
      [⟨DefectCategory.invalidValue, ["unikorn:virtualization"]⟩] := by
  have h := empty_enum_value_invalid_not_missing
    [("unikorn:os:kernel", "linux"), ("unikorn:os:family", "debian"),
     ("unikorn:os:distro", "ubuntu"), ("unikorn:os:version", "22.04"),
     ("unikorn:virtualization", "")]
    "unikorn:virtualization" ["any", "baremetal", "virtualized"]
    (by decide) (by decide) (by decide)
  exact ⟨h.1, h.2.2.1.trans (by decide)⟩

/-- C8: adding a key the schema does not declare, with any value, to a
bag that validates leaves the bag valid and both classifications
`Conforming` with identical extracted fields. -/
theorem unrecognized_key_preserves_conforming (bag : Bag) (k v : String)
    (hk : k ∉ recognizedKeys) (hc : validBag bag = true) :
    classify bag = Outcome.conforming (extractFields bag) ∧
    classify ((k, v) :: bag) = Outcome.conforming (extractFields bag) := by
  have hmiss : missingRequired ((k, v) :: bag) = missingRequired bag :=
    List.filter_congr fun k' hk' => by
      rw [lookup_cons_unrecognized bag k v k' hk (required_subset_recognized k' hk')]
  have hinv : invalidKeys ((k, v) :: bag) = invalidKeys bag :=
    List.filter_congr fun k' hk' => by
      rw [lookup_cons_unrecognized bag k v k' hk hk']
  have hvalid : validBag ((k, v) :: bag) = true := by
    unfold validBag
    rw [hmiss, hinv]
    exact hc
  have hext : extractFields ((k, v) :: bag) = extractFields bag :=
    List.map_congr_left fun gnk hg => by
      rw [lookup_cons_unrecognized bag k v gnk.2.2 hk (fieldKeys_recognized gnk hg)]
  exact ⟨by simp [classify, hc], by rw [classify, hvalid, if_pos rfl, hext]⟩

/-- C8 witness: adding the undeclared key "foo" to a conforming bag keeps
it conforming with the same extracted fields. -/
theorem unrecognized_key_preserves_conforming_witness :
    classify
      (("foo", "bar") ::
        [("unikorn:os:kernel", "linux"), ("unikorn:os:family", "debian"),
         ("unikorn:os:distro", "ubuntu"), ("unikorn:os:version", "22.04"),
         ("unikorn:virtualization", "any")]) =
    Outcome.conforming
      [("os", "kernel", some "linux"), ("os", "family", some "debian"),
       ("os", "distro", some "ubuntu"), ("os", "variant", none),
       ("os", "codename", none), ("os", "version", some "22.04"),
       ("package", "kubernetes", none), ("package", "slurmd", none),
       ("gpu", "vendor", none), ("gpu", "models", none),
       ("gpu", "driver", none), ("platform", "virtualization", some "any"),
       ("platform", "digest", none)] :=
  ((unrecognized_key_preserves_conforming
      [("unikorn:os:kernel", "linux"), ("unikorn:os:family", "debian"),
       ("unikorn:os:distro", "ubuntu"), ("unikorn:os:version", "22.04"),
       ("unikorn:virtualization", "any")]
      "foo" "bar" (by decide) (by decide)).2).trans (by decide)

/-- C2: a bag with every required key present and every present
recognized key schema-valid classifies as `Conforming`; the extracted
view maps every group member to the verbatim bag value of its key (the
absent marker `none` when an optional key is omitted), and all members of
the os, package, gpu and platform groups appear. -/
theorem conforming_extracts_verbatim (bag : Bag)
    (hreq : ∀ k ∈ requiredKeys, (lookupBag bag k).isSome)
    (hval : ∀ k ∈ recognizedKeys, Option.all (satisfies k) (lookupBag bag k) = true) :
    classify bag = Outcome.conforming (extractFields bag) ∧
    (∀ gnk ∈ fieldKeys, (gnk.1, gnk.2.1, lookupBag bag gnk.2.2) ∈ extractFields bag) ∧
    (extractFields bag).length = fieldKeys.length := by
  have hmiss : missingRequired bag = [] := by
    rw [missingRequired, List.filter_eq_nil_iff]
    intro k hk h
    have h2 := hreq k hk
    rw [Option.isNone_iff_eq_none] at h
    rw [h] at h2
    exact Bool.noConfusion h2
  have hinv : invalidKeys bag = [] := by
    rw [invalidKeys, List.filter_eq_nil_iff]
    intro k hk
    have h2 := hval k hk
    cases hl : lookupBag bag k with
    | none => simp
    | some v =>
      rw [hl] at h2
      simp only [Option.all_some] at h2
      simp [h2]
  have hvalid : validBag bag = true := by
    simp [validBag, hmiss, hinv]
  refine ⟨by simp [classify, hvalid], ?_, ?_⟩
  · intro gnk hg
    exact List.mem_map_of_mem _ hg
  · simp [extractFields]

/-- C2 witness: the five-key valid bag conforms with os fully populated
except variant and codename, and every other member carrying the absent
marker. -/
theorem conforming_extracts_verbatim_witness :
    classify
      [("unikorn:os:kernel", "linux"), ("unikorn:os:family", "debian"),
       ("unikorn:os:distro", "ubuntu"), ("unikorn:os:version", "22.04"),
       ("unikorn:virtualization", "any")] =
    Outcome.conforming
      [("os", "kernel", some "linux"), ("os", "family", some "debian"),
       ("os", "distro", some "ubuntu"), ("os", "variant", none),
       ("os", "codename", none), ("os", "version", some "22.04"),
       ("package", "kubernetes", none), ("package", "slurmd", none),
       ("gpu", "vendor", none), ("gpu", "models", none),
       ("gpu", "driver", none), ("platform", "virtualization", some "any"),
       ("platform", "digest", none)] :=
  ((conforming_extracts_verbatim
      [("unikorn:os:kernel", "linux"), ("unikorn:os:family", "debian"),
       ("unikorn:os:distro", "ubuntu"), ("unikorn:os:version", "22.04"),
       ("unikorn:virtualization", "any")]
      (by decide) (by decide)).1).trans (by decide)

/-- C4: an image none of whose property keys carries the `unikorn:`
prefix is dropped before the processing loop — no run outcome mentions
it — while every image with at least one such key is classified. -/
theorem ineligible_images_excluded (imgs : List Image) (image : Image)
    (himg : image ∈ imgs) :
    (eligible image = false ↔
      ∀ kv ∈ image.properties, ¬hasPrefix kv.1 "unikorn:") ∧
    (eligible image = false → ∀ p ∈ runOutcomes imgs, p.1 ≠ image) ∧
    (eligible image = true → (image, classify image.properties) ∈ runOutcomes imgs) := by
  refine ⟨?_, ?_, ?_⟩
  · rw [Bool.eq_false_iff, Ne, eligible, List.any_eq_true]
    push_neg
    simp
  · intro hne p hp
    simp only [runOutcomes, List.mem_map] at hp
    obtain ⟨i, hi, rfl⟩ := hp
    have hel := (List.mem_filter.mp hi).2
    intro heq
    have heq' : i = image := heq
    rw [heq'] at hel
    rw [hel] at hne
    exact Bool.noConfusion hne
  · intro he
    exact List.mem_map_of_mem _ (List.mem_filter.mpr ⟨himg, he⟩)

/-- C4 witness: in a two-image list where only the first image carries a
`unikorn:`-prefixed key, the first is classified and no outcome belongs
to the second. -/
theorem ineligible_images_excluded_witness :
    (Image.mk "a" "n" "t" 0 [("unikorn:os:kernel", "linux")],
      classify [("unikorn:os:kernel", "linux")]) ∈
      runOutcomes
        [Image.mk "a" "n" "t" 0 [("unikorn:os:kernel", "linux")],
         Image.mk "b" "m" "u" 0 [("os", "linux")]] ∧
    (Image.mk "a" "n" "t" 0 [("unikorn:os:kernel", "linux")],
      classify [("unikorn:os:kernel", "linux")]).1 ≠
      Image.mk "b" "m" "u" 0 [("os", "linux")] := by
  constructor
  · exact (ineligible_images_excluded
      [Image.mk "a" "n" "t" 0 [("unikorn:os:kernel", "linux")],
       Image.mk "b" "m" "u" 0 [("os", "linux")]]
      (Image.mk "a" "n" "t" 0 [("unikorn:os:kernel", "linux")])
      (by decide)).2.2 (by decide)
  · exact (ineligible_images_excluded
      [Image.mk "a" "n" "t" 0 [("unikorn:os:kernel", "linux")],
       Image.mk "b" "m" "u" 0 [("os", "linux")]]
      (Image.mk "b" "m" "u" 0 [("os", "linux")])
      (by decide)).2.1 (by decide)
      (Image.mk "a" "n" "t" 0 [("unikorn:os:kernel", "linux")],
        classify [("unikorn:os:kernel", "linux")])
      ((ineligible_images_excluded
          [Image.mk "a" "n" "t" 0 [("unikorn:os:kernel", "linux")],
           Image.mk "b" "m" "u" 0 [("os", "linux")]]
          (Image.mk "a" "n" "t" 0 [("unikorn:os:kernel", "linux")])
          (by decide)).2.2 (by decide))

/-- C9: classification is total — every bag yields one of the two
outcome variants — and the per-image loop covers every eligible image:
the run produces exactly one outcome per eligible image, however many
are non-conforming. -/
theorem classification_total_loop_continues :
    (∀ bag : Bag,
      (∃ fs, classify bag = Outcome.conforming fs) ∨
      (∃ ds, classify bag = Outcome.nonConforming ds)) ∧
    (∀ imgs : List Image,
      (runOutcomes imgs).length = (imgs.filter eligible).length) ∧
    (∀ imgs : List Image, ∀ image ∈ imgs, eligible image = true →
      (image, classify image.properties) ∈ runOutcomes imgs) := by
  refine ⟨fun bag => ?_, fun imgs => ?_, fun imgs image himg he => ?_⟩
  · cases h : validBag bag
    · exact Or.inr ⟨defects bag, by simp [classify, h]⟩
    · exact Or.inl ⟨extractFields bag, by simp [classify, h]⟩
  · simp [runOutcomes]
  · exact List.mem_map_of_mem _ (List.mem_filter.mpr ⟨himg, he⟩)

/-- C9 witness: a non-conforming image does not stop the loop — the
eligible image after it still receives its outcome. -/
theorem classification_total_loop_continues_witness :
    (runOutcomes
        [Image.mk "a" "n" "t" 0 [("unikorn:os:kernel", "windows")],
         Image.mk "b" "m" "u" 0 [("unikorn:os:kernel", "linux")]]).length =
      ([Image.mk "a" "n" "t" 0 [("unikorn:os:kernel", "windows")],
        Image.mk "b" "m" "u" 0 [("unikorn:os:kernel", "linux")]].filter eligible).length ∧
    (Image.mk "b" "m" "u" 0 [("unikorn:os:kernel", "linux")],
      classify [("unikorn:os:kernel", "linux")]) ∈
      runOutcomes
        [Image.mk "a" "n" "t" 0 [("unikorn:os:kernel", "windows")],
         Image.mk "b" "m" "u" 0 [("unikorn:os:kernel", "linux")]] :=
  ⟨classification_total_loop_continues.2.1
      [Image.mk "a" "n" "t" 0 [("unikorn:os:kernel", "windows")],
       Image.mk "b" "m" "u" 0 [("unikorn:os:kernel", "linux")]],
   classification_total_loop_continues.2.2
      [Image.mk "a" "n" "t" 0 [("unikorn:os:kernel", "windows")],
       Image.mk "b" "m" "u" 0 [("unikorn:os:kernel", "linux")]]
      (Image.mk "b" "m" "u" 0 [("unikorn:os:kernel", "linux")])
      (by decide) (by decide)⟩

/-- C10: only the `"properties"` error category produces detail lines —
for an error map with no `"properties"` entry the diagnostic is the fixed
four-line header alone, while a `"properties"` entry yields the category
message followed by the key lists found under its `"property"` and
`"properties"` params. -/
theorem only_properties_category_detailed (errors : List ErrorEntry)
    (h : ∀ e ∈ errors, e.1 ≠ "properties") :
    errorHeaderLines ++ errorDetailLines errors = errorHeaderLines ∧
    errorDetailLines errors = [] ∧
    (∀ ps : List (String × String),
      errorDetailLines [("properties", ps)] =
        "  - message: Object properties failed validation or do not exist" ::
        (["property", "properties"].filterMap fun k =>
          (List.lookup k ps).map fun v => "    properties: " ++ v)) := by
  have hnil : errorDetailLines errors = [] := by
    induction errors with
    | nil => rfl
    | cons e es ih =>
      have h1 := h e (List.mem_cons_self e es)
      have h2 : ∀ e' ∈ es, e'.1 ≠ "properties" :=
        fun e' he' => h e' (List.mem_cons_of_mem _ he')
      simp only [errorDetailLines, List.flatMap_cons] at ih ⊢
      rw [if_neg h1, List.nil_append]
      exact ih h2
  refine ⟨by rw [hnil, List.append_nil], hnil, fun ps => ?_⟩
  simp [errorDetailLines]

/-- C10 witness: an error map holding only a `"required"` entry adds no
detail lines beneath the fixed header. -/
theorem only_properties_category_detailed_witness :
    errorHeaderLines ++
        errorDetailLines [("required", [("properties", "[unikorn:os:family]")])] =
      errorHeaderLines :=
  (only_properties_category_detailed
    [("required", [("properties", "[unikorn:os:family]")])] (by decide)).1

end UnikornImages
